import Mathlib

/-!
Verification of the core of the `gemini-meet` dashboard: job spawning
(`dashboard/app/api/meetings/route.ts`), lifecycle reconciliation (same file,
`GET`), the stop operation (`dashboard/app/api/meetings/[id]/stop/route.ts`),
and the Datadog log client / transcript extractor (`dashboard/lib/db.ts`,
`DatadogClient`).

The JavaScript code is shallowly embedded: strings are processed as `List Char`
(ASCII suffices for every string the code manipulates), regular-expression
matching is compiled by hand into deterministic scanners that reproduce the
leftmost-match backtracking semantics of the specific patterns in the source,
JavaScript objects used as ordered string-keyed maps become insertion-ordered
association lists, and every fallible external effect (Docker, Postgres, fetch,
the filesystem) is an explicit parameter of `Except` / outcome type.
-/

namespace GeminiMeet

/-! ## Character-level string utilities

These model the JavaScript string primitives used by the source:
`String.prototype.split`, `includes`, `trim`, `startsWith`, `toLowerCase`,
and the character classes of its regexes.
-/

/-- The whitespace characters of JavaScript's `\s` class (ASCII part), also the
set removed by `String.prototype.trim`. -/
def isJsSpace (c : Char) : Bool :=
  c = ' ' || c = '\t' || c = '\n' || c = '\r' || c = '\x0b' || c = '\x0c'

/-- `startsWithList needle cs`: `cs` begins with `needle`
(JS `String.prototype.startsWith`). -/
def startsWithList : List Char → List Char → Bool
  | [], _ => true
  | _ :: _, [] => false
  | a :: as, b :: bs => a = b && startsWithList as bs

/-- `containsList needle cs`: `needle` occurs somewhere in `cs`
(JS `String.prototype.includes`, for the nonempty needles the source uses). -/
def containsList (needle : List Char) : List Char → Bool
  | [] => startsWithList needle []
  | c :: cs => startsWithList needle (c :: cs) || containsList needle cs

/-- The suffix after the first occurrence of `needle`, if any. -/
def afterFirst (needle : List Char) : List Char → Option (List Char)
  | [] => if needle.isEmpty then some [] else none
  | c :: cs =>
    if startsWithList needle (c :: cs) then some ((c :: cs).drop needle.length)
    else afterFirst needle cs

/-- The chunk before the first occurrence of `needle` (all of `cs` if none).
`upTo m (afterFirst m s)` is element 1 of JS `s.split(m)`. -/
def upTo (needle : List Char) : List Char → List Char
  | [] => []
  | c :: cs =>
    if startsWithList needle (c :: cs) then []
    else c :: upTo needle cs

/-- JS `String.prototype.trim`. -/
def trimList (cs : List Char) : List Char :=
  ((cs.dropWhile isJsSpace).reverse.dropWhile isJsSpace).reverse

/-- JS `str.split(sep)` for a one-character separator, as used with `'\n'` and
`':'` in the source.  `split` of the empty string is `[""]`. -/
def splitOnChar (sep : Char) : List Char → List (List Char)
  | [] => [[]]
  | c :: cs =>
    if c = sep then [] :: splitOnChar sep cs
    else
      match splitOnChar sep cs with
      | [] => [[c]]
      | l :: ls => (c :: l) :: ls

/-- JS `logs.split('\n')` on a `String`. -/
def splitNl (s : String) : List String :=
  (splitOnChar '\n' s.data).map (fun l => String.mk l)

/-- Whether a string contains a newline (so that `splitNl` is nontrivial). -/
def hasNl (s : String) : Bool := s.data.any (fun c => c = '\n')

/-! ## Log-line shape
`DatadogClient.getMeetingDetails` first matches each line against
`/^(\d{4}-\d{2}-\d{2}T\d{2}:\d{2}:\d{2}\.\d{3}Z)\s+\[.*?\]\s+(.*)$/`
(`db.ts:470`); lines that fail are dropped (`if (!match) return`).
-/

/-- Match a list of character classes against a prefix of `cs`, returning the
rest on success. -/
def matchShape : List (Char → Bool) → List Char → Option (List Char)
  | [], cs => some cs
  | _ :: _, [] => none
  | p :: ps, c :: cs => if p c then matchShape ps cs else none

/-- The 24 character classes of the timestamp group
`\d{4}-\d{2}-\d{2}T\d{2}:\d{2}:\d{2}\.\d{3}Z`. -/
def tsShape : List (Char → Bool) :=
  [Char.isDigit, Char.isDigit, Char.isDigit, Char.isDigit, fun c => c = '-',
   Char.isDigit, Char.isDigit, fun c => c = '-',
   Char.isDigit, Char.isDigit, fun c => c = 'T',
   Char.isDigit, Char.isDigit, fun c => c = ':',
   Char.isDigit, Char.isDigit, fun c => c = ':',
   Char.isDigit, Char.isDigit, fun c => c = '.',
   Char.isDigit, Char.isDigit, Char.isDigit, fun c => c = 'Z']

/-- `\s+` (greedy, at least one whitespace character): the continuation after it
in both uses (`\[` resp. `(.*)$`) cannot consume whitespace resp. always
succeeds, so the maximal run is the unique match. -/
def wsRun1 : List Char → Option (List Char)
  | [] => none
  | c :: cs => if isJsSpace c then some (cs.dropWhile isJsSpace) else none

/-- A single expected literal character. -/
def expectChar (a : Char) : List Char → Option (List Char)
  | [] => none
  | c :: cs => if c = a then some cs else none

/-- `\[.*?\]` followed by `\s+...`: the lazy `.*?` stops at the first `]` whose
successor is a whitespace character (the continuation `\s+` demands one);
returns the suffix starting at that whitespace. -/
def scanBracketClose : List Char → Option (List Char)
  | [] => none
  | ']' :: rest =>
    if (match rest with | c :: _ => isJsSpace c | [] => false) then some rest
    else scanBracketClose rest
  | _ :: rest => scanBracketClose rest

/-- The two-group line regex of `getMeetingDetails`: on success returns the
timestamp text (group 1) and the message (group 2). -/
def parseLogLine (line : String) : Option (String × String) :=
  Option.bind (matchShape tsShape line.data) fun r1 =>
  Option.bind (wsRun1 r1) fun r2 =>
  Option.bind (expectChar '[' r2) fun r3 =>
  Option.bind (scanBracketClose r3) fun r4 =>
  Option.bind (wsRun1 r4) fun r5 =>
  some (String.mk (line.data.take (line.data.length - r1.length)), String.mk r5)

/-! ## Tool-usage extraction (`db.ts:480-516`) -/

/-- The regex class `[a-zA-Z0-9_-]` of candidate tool names. -/
def isToolChar (c : Char) : Bool := c.isAlpha || c.isDigit || c = '_' || c = '-'

/-- The regex class `[a-zA-Z0-9_]` of argument keys in the fallback pattern. -/
def isKeyChar (c : Char) : Bool := c.isAlpha || c.isDigit || c = '_'

/-- The fixed logger marker of "Method A" (`db.ts:483`). -/
def agentLoggerMarker : String := "gemini_meet_client.agent"

/-- The alternatives of the known-result filter regex
`/^(Sent message\.|Finished speaking\.|...)/` (`db.ts:493`): the regex is only
`.test`ed, so it holds exactly when the text starts with one of these. -/
def resultHeads : List String :=
  ["Sent message.", "Finished speaking.", "Joined meeting.", "Left the meeting.",
   "Interrupted by detected speech", "BinaryContent(", "Error calling tool",
   "[error]", "Title:"]

/-- Method A: split the message on `gemini_meet_client.agent`; on the trimmed
part between the first and second occurrence (`parts[1]`), match
`/^([a-zA-Z0-9_-]+):/` — the character class excludes `:`, so the unique
candidate is the maximal run followed by `:` — and accept the name unless the
trimmed remainder starts with a known result phrase.  Returns the accepted tool
name; `none` both when the marker/shape is absent and when the text is a
result (in the source `toolCallFound` stays `false` in all those cases). -/
def methodAtool (msg : List Char) : Option String :=
  match afterFirst agentLoggerMarker.data msg with
  | none => none
  | some tail =>
    let content := trimList (upTo agentLoggerMarker.data tail)
    let run := content.takeWhile isToolChar
    match run, content.drop run.length with
    | _ :: _, ':' :: _ =>
      let rest := trimList (content.drop (run.length + 1))
      if resultHeads.any (fun h => startsWithList h.data rest) then none
      else some (String.mk run)
    | _, _ => none

/-- One attempt of the fallback pattern `([a-zA-Z0-9_-]+):\s+[a-zA-Z0-9_]+=`
with the name starting at `cs`.  Each quantified piece is over a character
class disjoint from its successor, so greedy matching is deterministic. -/
def fallbackTry (cs : List Char) : Option String :=
  let run := cs.takeWhile isToolChar
  match run, cs.drop run.length with
  | _ :: _, ':' :: rest =>
    let ws := rest.takeWhile isJsSpace
    match ws, rest.drop ws.length with
    | _ :: _, afterWs =>
      let key := afterWs.takeWhile isKeyChar
      match key, afterWs.drop key.length with
      | _ :: _, '=' :: _ => some (String.mk run)
      | _, _ => none
    | _, _ => none
  | _, _ => none

/-- Scan for the `\s`-preceded alternative of `(?:^|\s)` at every position, in
leftmost order. -/
def fallbackScanAux : List Char → Option String
  | [] => none
  | c :: cs =>
    if isJsSpace c then
      match fallbackTry cs with
      | some n => some n
      | none => fallbackScanAux cs
    else fallbackScanAux cs

/-- Method B (`db.ts:508`): leftmost match of
`/(?:^|\s)([a-zA-Z0-9_-]+):\s+[a-zA-Z0-9_]+=/`, name anchored at the start of
the message or right after a whitespace character. -/
def fallbackFind (msg : List Char) : Option String :=
  match fallbackTry msg with
  | some n => some n
  | none => fallbackScanAux msg

/-- The reserved level tokens excluded by the fallback rule (`db.ts:512`). -/
def reservedLevels : List String := ["INFO", "WARNING", "ERROR", "DEBUG"]

/-- `toolUsage[toolName] = (toolUsage[toolName] || 0) + 1` on an
insertion-ordered string-keyed object. -/
def bump (counts : List (String × Nat)) (k : String) : List (String × Nat) :=
  if counts.any (fun p => p.1 = k) then
    counts.map (fun p => if p.1 = k then (p.1, p.2 + 1) else p)
  else counts ++ [(k, 1)]

/-- The complete tool-usage step for one message: Method A first; the fallback
only when it found nothing (`if (!toolCallFound)`), and never for a reserved
level token. -/
def toolStep (counts : List (String × Nat)) (msg : List Char) :
    List (String × Nat) :=
  match methodAtool msg with
  | some t => bump counts t
  | none =>
    match fallbackFind msg with
    | some n => if reservedLevels.contains n then counts else bump counts n
    | none => counts

/-! ## Transcript extraction (`db.ts:519-575`) -/

/-- Speaker kind of a segment (the JS field is named `type`). -/
inductive SpeakerKind where
  | agent
  | user
deriving DecidableEq

/-- One transcript segment as pushed by `getMeetingDetails`. -/
structure Segment where
  timestamp : String
  speaker : String
  message : String
  kind : SpeakerKind
deriving DecidableEq

/-- The extractor state: ordered transcript and tool-usage map. -/
structure ExtractState where
  transcript : List Segment
  toolUsage : List (String × Nat)
deriving DecidableEq

/-- The agent-speech marker `gemini_meet_speak_text: text="` (`db.ts:522`). -/
def speakMarkerFull : String := "gemini_meet_speak_text: text=\""

/-- The bare marker used by the user-speech guard (`db.ts:553`). -/
def speakMarkerBase : String := "gemini_meet_speak_text"

/-- The control-event text excluded from agent speech (`db.ts:524`). -/
def interruptMarker : String := "Interrupted by detected speech"

/-- Capture group of `/gemini_meet_speak_text: text="(.*?)"/`: from the
leftmost occurrence of the literal, the lazy group runs to the first following
`"`; if an occurrence has no closing quote after it the engine advances to the
next occurrence. -/
def agentCapture : List Char → Option String
  | [] => none
  | c :: cs =>
    if startsWithList speakMarkerFull.data (c :: cs) then
      let rest := (c :: cs).drop speakMarkerFull.data.length
      let content := rest.takeWhile (fun ch => ch ≠ '"')
      if (rest.drop content.length).isEmpty then agentCapture cs
      else some (String.mk content)
    else agentCapture cs

/-- One attempt of `/([^:]+): "([^"]+)"$/` with the name starting at `cs`:
`[^:]+` greedily runs to the first colon, then the literal `: "` , then
`[^"]+` to the first quote, which must be the final character. -/
def userTryAt (cs : List Char) : Option (List Char × List Char) :=
  let run := cs.takeWhile (fun c => c ≠ ':')
  match run, cs.drop run.length with
  | _ :: _, ':' :: ' ' :: '"' :: rest =>
    let text := rest.takeWhile (fun c => c ≠ '"')
    match text, rest.drop text.length with
    | _ :: _, ['"'] => some (run, text)
    | _, _ => none
  | _, _ => none

/-- Leftmost match of the user-speech regex over the message. -/
def userMatchChars : List Char → Option (List Char × List Char)
  | [] => none
  | c :: cs =>
    match userTryAt (c :: cs) with
    | some r => some r
    | none => userMatchChars cs

/-- Speakers filtered out of the transcript (`db.ts:564`). -/
def ignoredSpeakers : List String := ["gemini_meet_client", "Spoken", "GeminiAgent"]

/-- The user-speech section (`db.ts:550-575`): guarded by the absence of the
bare speak marker; strips a logger-name front piece when the captured name
contains a colon (dead with this regex, kept faithfully); drops ignored
speakers and names containing a dot; appends with no deduplication. -/
def userStep (timestamp : String) (msg : List Char) (st : ExtractState) :
    ExtractState :=
  match userMatchChars msg with
  | none => st
  | some (rawName, text) =>
    if containsList speakMarkerBase.data msg then st
    else
      let name := trimList rawName
      let name :=
        if containsList [':'] name then trimList ((splitOnChar ':' name).getLastD [])
        else name
      let nameS := String.mk name
      let ignored :=
        ignoredSpeakers.any (fun s => startsWithList s.data name || nameS = s) ||
          containsList ['.'] name
      if ignored then st
      else
        { st with transcript :=
            st.transcript ++ [⟨timestamp, nameS, String.mk text, .user⟩] }

/-- Processing of one raw line (`lines.forEach` body, `db.ts:468-576`):
parse the line shape (skip on failure), update tool usage, then agent speech
with deduplication against the most recent segment, else user speech. -/
def processLine (fmt : String → String) (st : ExtractState) (line : String) :
    ExtractState :=
  match parseLogLine line with
  | none => st
  | some (ts, message) =>
    let timestamp := fmt ts
    let msg := message.data
    let st1 : ExtractState := { st with toolUsage := toolStep st.toolUsage msg }
    if containsList speakMarkerFull.data msg then
      if containsList interruptMarker.data msg then st1
      else
        match agentCapture msg with
        | some content =>
          match st1.transcript.getLast? with
          | some last =>
            if last.kind = .agent ∧ last.message = content then st1
            else
              { st1 with transcript :=
                  st1.transcript ++ [⟨timestamp, "Gemini", content, .agent⟩] }
          | none =>
            { st1 with transcript :=
                st1.transcript ++ [⟨timestamp, "Gemini", content, .agent⟩] }
        | none => userStep timestamp msg st1
    else userStep timestamp msg st1

/-- The whole extractor over a batch of raw lines.  The display formatting of
the timestamp (`toLocaleTimeString`, locale- and timezone-dependent) is
abstracted as the function `fmt`. -/
def extract (fmt : String → String) (lines : List String) : ExtractState :=
  lines.foldl (processLine fmt) ⟨[], []⟩

/-! ## Configuration materialization (`meetings/route.ts:96-119`, `POST`) -/

/-- One `mcp_configs` row as used by the spawn handler (`name`, `command`,
`args`, `env`); the `env` jsonb object is an ordered string map. -/
structure McpConfig where
  name : String
  command : String
  args : List String
  env : List (String × String)
deriving DecidableEq

/-- The value stored under a server key in `config_meet.json`: `command`,
`args`, and `env` only when the map is nonempty
(`...(Object.keys(env).length > 0 && { env })`). -/
structure McpEntry where
  command : String
  args : List String
  env : Option (List (String × String))
deriving DecidableEq

/-- `Object.values(env).some(v => v === '')` (`route.ts:108`). -/
def hasEmptyEnvVars (env : List (String × String)) : Bool :=
  env.any (fun p => p.2 = "")

/-- Runs of whitespace become a single `-` (the `replace(/\s+/g, '-')` part of
the key normalization); `inRun` records whether the previous character was
part of a whitespace run already replaced. -/
def squashWs (inRun : Bool) : List Char → List Char
  | [] => []
  | c :: cs =>
    if isJsSpace c then
      if inRun then squashWs true cs else '-' :: squashWs true cs
    else c :: squashWs false cs

/-- `config.name.toLowerCase().replace(/\s+/g, '-')` (`route.ts:110`). -/
def normalizeName (s : String) : String :=
  String.mk (squashWs false (s.data.map Char.toLower))

/-- The entry built for an included config. -/
def mkEntry (c : McpConfig) : McpEntry :=
  ⟨c.command, c.args, if c.env.isEmpty then none else some c.env⟩

/-- JS object assignment `obj[k] = v` on an insertion-ordered map: replace in
place when the key exists, else append. -/
def upsert (m : List (String × McpEntry)) (k : String) (v : McpEntry) :
    List (String × McpEntry) :=
  if m.any (fun p => p.1 = k) then
    m.map (fun p => if p.1 = k then (k, v) else p)
  else m ++ [(k, v)]

/-- The loop body over fetched configs (`route.ts:102-116`): skip a config
with any empty env value, otherwise store it under its normalized name. -/
def mcpStep (acc : List (String × McpEntry)) (c : McpConfig) :
    List (String × McpEntry) :=
  if hasEmptyEnvVars c.env then acc
  else upsert acc (normalizeName c.name) (mkEntry c)

/-- The `mcpServers` object of the materialized `config_meet.json`. -/
def buildMcpServers (cfgs : List McpConfig) : List (String × McpEntry) :=
  cfgs.foldl mcpStep []

/-- The configs whose env maps have no empty value (the included subset). -/
def cleanConfigs (cfgs : List McpConfig) : List McpConfig :=
  cfgs.filter (fun c => !hasEmptyEnvVars c.env)

/-! ## Job data model and lifecycle reconciliation
(`meetings/route.ts`, `GET`, lines 27-59)
-/

/-- Persisted meeting status. -/
inductive MStatus where
  | pending
  | running
  | completed
  | failed
  | stopped
deriving DecidableEq

/-- A row of the `meetings` table as this subsystem reads and writes it.
Timestamps are abstract ticks. -/
structure Meeting where
  id : String
  url : String
  status : MStatus
  containerId : Option String
  config : List (String × McpEntry)
  createdBy : String
  endedAt : Option Nat
deriving DecidableEq

/-- A status from which the reconciler makes no further transition. -/
def isTerminal : MStatus → Bool
  | .completed => true
  | .failed => true
  | .stopped => true
  | _ => false

/-- Result of `docker.getContainer(id).inspect()`: either the observed
`State.Running` / `State.ExitCode` (the exit code may be absent), or a thrown
error (container unknown to the runtime). -/
inductive InspectOutcome where
  | ok (running : Bool) (exitCode : Option Int)
  | err
deriving DecidableEq

/-- The per-meeting body of the reconciliation loop (`route.ts:31-58`), for a
meeting selected as `running`.  `isRunning` starts `false` and `exitCode`
starts `0`; a missing container id or a failed inspection leaves them so.
When not running, the final status is `completed` for exit code `0` and
`failed` otherwise, together with an end timestamp. -/
def reconcileJob (inspect : String → InspectOutcome) (now : Nat) (m : Meeting) :
    Meeting :=
  let obs : Bool × Option Int :=
    match m.containerId with
    | none => (false, some 0)
    | some cid =>
      match inspect cid with
      | .ok r ec => (r, ec)
      | .err => (false, some 0)
  if obs.1 then m
  else
    { m with
      status := if obs.2 = some 0 then .completed else .failed,
      endedAt := some now }

/-- What one reconciliation pass does to an arbitrary row: only rows matching
the query `created_by = userId AND status = 'running'` are touched. -/
def reconcileStep (inspect : String → InspectOutcome) (now : Nat)
    (uid : String) (m : Meeting) : Meeting :=
  if m.createdBy = uid ∧ m.status = .running then reconcileJob inspect now m
  else m

/-- One invocation of the `GET` reconciliation over the whole store. -/
def reconcileAll (inspect : String → InspectOutcome) (now : Nat) (uid : String)
    (store : List Meeting) : List Meeting :=
  store.map (reconcileStep inspect now uid)

/-! ## Stop operation (`meetings/[id]/stop/route.ts`) -/

/-- Response of the stop route (the DB itself is assumed reachable; a thrown
Docker stop error is caught and only logged). -/
inductive StopResult where
  | notFound
  | success
deriving DecidableEq

/-- `POST /api/meetings/[id]/stop` (`stop/route.ts:5-31`): look up the row; if
absent answer 404; otherwise attempt `container.stop()` with any error
swallowed, then unconditionally `UPDATE meetings SET status = 'stopped'`. -/
def stopMeeting (dockerStop : String → Except String Unit)
    (store : List Meeting) (id : String) : List Meeting × StopResult :=
  match store.find? (fun m => m.id = id) with
  | none => (store, .notFound)
  | some m =>
    let _ :=
      match m.containerId with
      | some cid => dockerStop cid
      | none => Except.ok ()
    (store.map (fun x => if x.id = id then { x with status := .stopped } else x),
     .success)

/-! ## Spawn (`meetings/route.ts`, `POST`, lines 73-233) -/

/-- Caller-visible result of the spawn handler. -/
inductive SpawnResult where
  | badRequest
  | spawnError
  | ok (meetingId : String)
deriving DecidableEq

/-- Outcomes of every fallible step of the spawn handler, in program order:
the request body's `url`, the `mcp_configs` query, the two `fs.mkdir`s, the
config `fs.writeFile`, `docker.createContainer` (yielding the container id),
`container.start`, and the final `db.insert`. -/
structure SpawnEnv where
  url : Option String
  newId : String
  configsFetch : Except String (List McpConfig)
  mkdirConfig : Except String Unit
  mkdirData : Except String Unit
  writeConfig : Except String Unit
  credsExists : Bool
  create : Except String String
  start : Except String Unit
  insertOk : Bool

/-- `Except.isOk` as a plain boolean. -/
def exOk {ε α : Type} : Except ε α → Bool
  | .ok _ => true
  | .error _ => false

/-- The spawn handler: each step runs only after every earlier one succeeded;
any throw lands in the catch block, which answers `Failed to spawn agent`
without touching the store.  The row is inserted with status `running` and the
created container's id only after `container.start()` returned. -/
def spawn (env : SpawnEnv) (uid : String) (store : List Meeting) :
    List Meeting × SpawnResult :=
  match env.url with
  | none => (store, .badRequest)
  | some url =>
    match env.configsFetch with
    | .error _ => (store, .spawnError)
    | .ok cfgs =>
      let config := buildMcpServers cfgs
      match env.mkdirConfig with
      | .error _ => (store, .spawnError)
      | .ok _ =>
        match env.mkdirData with
        | .error _ => (store, .spawnError)
        | .ok _ =>
          match env.writeConfig with
          | .error _ => (store, .spawnError)
          | .ok _ =>
            match env.create with
            | .error _ => (store, .spawnError)
            | .ok cid =>
              match env.start with
              | .error _ => (store, .spawnError)
              | .ok _ =>
                if env.insertOk then
                  (store ++
                     [⟨env.newId, url, .running, some cid, config, uid, none⟩],
                   .ok env.newId)
                else (store, .spawnError)

/-! ## Datadog log client (`db.ts:398-459`) -/

/-- One log event as consumed from the search response: timestamp attribute,
`status` (empty = absent, defaulted to `INFO`), resolved logger name (empty =
absent) and message. -/
structure LogEntry where
  timestamp : String
  status : String
  loggerName : String
  message : String
deriving DecidableEq

/-- Outcome of the guarded part of `fetchLogs`: a thrown error (network
failure, or `response.json()` failing — both reach the same catch), a non-ok
HTTP response, an ok response without a `data` array, or the entries. -/
inductive FetchOutcome where
  | netThrow (e : String)
  | httpError (status : Nat) (statusText : String)
  | invalidData
  | success (entries : List LogEntry)
deriving DecidableEq

/-- The client's credential state and the network outcome of the one request
`fetchLogs` makes. -/
structure DatadogEnv where
  apiKey : String
  appKey : String
  outcome : FetchOutcome
deriving DecidableEq

/-- The fixed credentials-missing placeholder (`db.ts:400`). -/
def credsMissingMsg : String :=
  "Datadog API Key or Application Key is missing in environment variables."

/-- One formatted line `TIME [STATUS] [LOGGER ]MESSAGE` (`db.ts:443-451`);
`new Date(ts).toISOString()` is abstracted as `iso`. -/
def formatEntry (iso : String → String) (e : LogEntry) : String :=
  iso e.timestamp ++ " [" ++ (if e.status = "" then "INFO" else e.status) ++
    "] " ++
    (if e.loggerName ≠ "" ∧ ¬e.message.startsWith e.loggerName then
       e.loggerName ++ " "
     else "") ++ e.message

/-- `DatadogClient.fetchLogs`: a total function into `String` — every failure
is rendered as a placeholder message, none is propagated. -/
def fetchLogs (iso : String → String) (env : DatadogEnv) : String :=
  if env.apiKey = "" ∨ env.appKey = "" then credsMissingMsg
  else
    match env.outcome with
    | .netThrow e => "Failed to connect to Datadog: " ++ e
    | .httpError status statusText =>
      "Error fetching logs from Datadog: " ++ Nat.repr status ++ " " ++ statusText
    | .invalidData => "No logs found or invalid response from Datadog."
    | .success entries => String.intercalate "\n" (entries.map (formatEntry iso))

/-- `DatadogClient.getMeetingDetails` (`db.ts:461-579`): fetch, split on
newlines, extract. -/
def getMeetingDetails (fmt iso : String → String) (env : DatadogEnv) :
    ExtractState :=
  extract fmt (splitNl (fetchLogs iso env))

/-! ## Concrete collaborator doubles used in closed statements -/

/-- A runtime for which every inspection throws (container unknown). -/
def inspectErr : String → InspectOutcome := fun _ => InspectOutcome.err

/-- A runtime whose `container.stop()` succeeds. -/
def dockerStopOk : String → Except String Unit := fun _ => Except.ok ()

/-! ## Helper lemmas -/

theorem stringMk_data (s : String) : String.mk s.data = s := rfl

theorem data_append (a b : String) : (a ++ b).data = a.data ++ b.data := rfl

/-- A line whose first character is not a digit fails the line regex. -/
theorem parse_none_head (s : String) (c : Char) (cs : List Char)
    (hd : s.data = c :: cs) (hc : c.isDigit = false) : parseLogLine s = none := by
  simp [parseLogLine, hd, tsShape, matchShape, hc]

/-- A line failing the line regex leaves the extractor state untouched. -/
theorem processLine_skip (fmt : String → String) (st : ExtractState)
    (line : String) (h : parseLogLine line = none) :
    processLine fmt st line = st := by
  simp [processLine, h]

/-- A batch of lines all failing the line regex extracts nothing. -/
theorem foldl_processLine_skip (fmt : String → String) (lines : List String)
    (h : ∀ l ∈ lines, parseLogLine l = none) :
    ∀ st : ExtractState, lines.foldl (processLine fmt) st = st := by
  induction lines with
  | nil => intro st; rfl
  | cons l ls ih =>
    intro st
    rw [List.foldl_cons, processLine_skip fmt st l (h l (List.mem_cons_self l ls))]
    exact ih (fun x hx => h x (List.mem_cons_of_mem l hx)) st

/-- Splitting on a character that does not occur returns the whole list. -/
theorem splitOnChar_no_sep (sep : Char) (cs : List Char)
    (h : cs.any (fun c => c = sep) = false) : splitOnChar sep cs = [cs] := by
  induction cs with
  | nil => rfl
  | cons c cs ih =>
    simp only [List.any_cons, Bool.or_eq_false_iff] at h
    have hc : ¬c = sep := by simpa using h.1
    simp [splitOnChar, hc, ih h.2]

/-- `split('\n')` of a newline-free string is that one line. -/
theorem splitNl_single (s : String) (h : hasNl s = false) : splitNl s = [s] := by
  unfold splitNl
  rw [splitOnChar_no_sep '\n' s.data h]
  simp [stringMk_data]

/-- A single newline-free, shape-less string extracts nothing. -/
theorem extract_single_skip (fmt : String → String) (s : String)
    (hp : parseLogLine s = none) (hn : hasNl s = false) :
    extract fmt (splitNl s) = ⟨[], []⟩ := by
  rw [splitNl_single s hn]
  exact foldl_processLine_skip fmt [s] (by simpa using hp) ⟨[], []⟩

theorem hasNl_append (a b : String) : hasNl (a ++ b) = (hasNl a || hasNl b) := by
  simp [hasNl, data_append, List.any_append]

/-! ## Claim C1 — reconciliation of a job whose inspection fails

The spec (§4.3 step 2, §8) requires final status `stopped` when inspection
fails.  In the source, `exitCode` is initialized to `0` and is left there when
`container.inspect()` throws, and the initial `let status = 'stopped'` is dead
(the following `if/else` always overwrites it), so the job is finalized as
`completed`.
-/

/-- Claim C1: evaluating the reconciler at the failing input — a job recorded
as running whose container inspection throws — the code finalizes it as
`completed`, not the `stopped` the claim requires. -/
theorem c1_inspect_failure_completes :
    (reconcileStep inspectErr 7 "u1"
        ⟨"m1", "https://meet.example", MStatus.running, some "c1", [], "u1",
          none⟩).status = MStatus.completed ∧
      MStatus.completed ≠ MStatus.stopped := by
  decide

/-! ## Claim C2 — stop versus already-terminal jobs -/

/-- Claim C2, counterexample: the stop route updates the status
unconditionally, so a job already persisted as `completed` is overwritten to
`stopped`, contradicting the claim that stop leaves terminal statuses
unchanged. -/
theorem c2_stop_overwrites_completed :
    ((stopMeeting dockerStopOk
          [⟨"m1", "https://meet.example", MStatus.completed, some "c1", [],
            "owner", none⟩] "m1").1.map Meeting.status = [MStatus.stopped]) ∧
      MStatus.stopped ≠ MStatus.completed := by
  decide

/-- Claim C2 as amended: the stop operation applies to every existing job
regardless of its persisted status — if the id resolves to a row, the call
reports success (any container-stop error is swallowed, so an already-stopped
container is tolerated) and the row's status becomes `stopped`, even when it
was `completed` or `failed`. -/
theorem c2_amended_stop_unconditional (ds : String → Except String Unit)
    (store : List Meeting) (id : String) (m : Meeting)
    (h : store.find? (fun x => x.id = id) = some m) :
    (stopMeeting ds store id).2 = StopResult.success ∧
      ∀ x ∈ (stopMeeting ds store id).1, x.id = id →
        x.status = MStatus.stopped := by
  constructor
  · simp [stopMeeting, h]
  · intro x hx hid
    simp only [stopMeeting, h] at hx
    obtain ⟨y, -, rfl⟩ := List.mem_map.mp hx
    by_cases hy : y.id = id
    · simp [hy]
    · simp only [if_neg hy] at hid ⊢
      exact absurd hid hy

/-- Witness for the amended C2 at a concrete store holding a completed job. -/
theorem c2_amended_stop_unconditional_witness :
    (stopMeeting dockerStopOk
        [⟨"m2", "https://meet.example", MStatus.failed, some "c2", [], "owner",
          none⟩] "m2").2 = StopResult.success ∧
      Meeting.status
          ⟨"m2", "https://meet.example", MStatus.stopped, some "c2", [],
            "owner", none⟩ = MStatus.stopped := by
  have h := c2_amended_stop_unconditional dockerStopOk
    [⟨"m2", "https://meet.example", MStatus.failed, some "c2", [], "owner",
      none⟩] "m2"
    ⟨"m2", "https://meet.example", MStatus.failed, some "c2", [], "owner", none⟩
    (by decide)
  exact ⟨h.1, h.2
    ⟨"m2", "https://meet.example", MStatus.stopped, some "c2", [], "owner",
      none⟩ (by decide) (by decide)⟩

/-! ## Claim C5 — spawn is atomic with respect to the job store -/

/-- Claim C5: if any of sandbox materialization (the two `mkdir`s, the config
write), container creation, or container start fails, the store is untouched
and the caller is not told success; and any row the spawn adds has status
`running` and exists only when both create and start succeeded. -/
theorem c5_spawn_atomic (env : SpawnEnv) (uid : String) (store : List Meeting) :
    ((exOk env.mkdirConfig = false ∨ exOk env.mkdirData = false ∨
        exOk env.writeConfig = false ∨ exOk env.create = false ∨
        exOk env.start = false) →
      (spawn env uid store).1 = store ∧
        ∀ mid, (spawn env uid store).2 ≠ SpawnResult.ok mid) ∧
    (∀ m ∈ (spawn env uid store).1, m ∉ store →
      m.status = MStatus.running ∧ exOk env.create = true ∧
        exOk env.start = true) := by
  obtain ⟨u, nid, cf, mc, md, wc, ce, cr, st, ins⟩ := env
  constructor
  · intro h
    rcases u with _ | u <;> rcases cf with e0 | cfgs <;> rcases mc with e1 | u1 <;>
      rcases md with e2 | u2 <;> rcases wc with e3 | u3 <;>
      rcases cr with e4 | cid <;> rcases st with e5 | u5 <;> cases ins <;>
      simp_all [spawn, exOk]
  · intro m hm hnm
    rcases u with _ | u <;> rcases cf with e0 | cfgs <;> rcases mc with e1 | u1 <;>
      rcases md with e2 | u2 <;> rcases wc with e3 | u3 <;>
      rcases cr with e4 | cid <;> rcases st with e5 | u5 <;> cases ins <;>
      simp_all [spawn, exOk]

/-- Witness for C5: a failing `mkdir` aborts a concrete spawn with an empty
store left empty and no success reported. -/
theorem c5_spawn_atomic_witness :
    (spawn
        ⟨some "https://meet.example", "id1", Except.ok [], Except.error "disk full",
          Except.ok (), Except.ok (), true, Except.ok "cid1", Except.ok (),
          true⟩ "u1" []).1 = [] ∧
      ∀ mid,
        (spawn
            ⟨some "https://meet.example", "id1", Except.ok [],
              Except.error "disk full", Except.ok (), Except.ok (), true,
              Except.ok "cid1", Except.ok (), true⟩ "u1" []).2 ≠
          SpawnResult.ok mid :=
  (c5_spawn_atomic
    ⟨some "https://meet.example", "id1", Except.ok [], Except.error "disk full",
      Except.ok (), Except.ok (), true, Except.ok "cid1", Except.ok (), true⟩
    "u1" []).1 (by decide)

/-! ## Claim C6 — fetchLogs never raises -/

/-- Claim C6: `fetchLogs` is a total function into `String`: missing
credentials yield the fixed credentials-missing placeholder, a thrown
network/parse error yields the `Failed to connect` string, a non-ok HTTP
response yields the `Error fetching logs` string, a malformed body yields the
`No logs found` string, and success yields the joined formatted lines — in
every case an ordinary string, never an exception. -/
theorem c6_fetchLogs_total (iso : String → String) (env : DatadogEnv) :
    (env.apiKey = "" ∨ env.appKey = "" →
      fetchLogs iso env = credsMissingMsg) ∧
    (env.apiKey ≠ "" → env.appKey ≠ "" →
      (∀ e, env.outcome = FetchOutcome.netThrow e →
        fetchLogs iso env = "Failed to connect to Datadog: " ++ e) ∧
      (∀ s t, env.outcome = FetchOutcome.httpError s t →
        fetchLogs iso env =
          "Error fetching logs from Datadog: " ++ Nat.repr s ++ " " ++ t) ∧
      (env.outcome = FetchOutcome.invalidData →
        fetchLogs iso env = "No logs found or invalid response from Datadog.") ∧
      (∀ es, env.outcome = FetchOutcome.success es →
        fetchLogs iso env =
          String.intercalate "\n" (es.map (formatEntry iso)))) := by
  constructor
  · intro h
    unfold fetchLogs
    rw [if_pos h]
  · intro h1 h2
    have hcond : ¬(env.apiKey = "" ∨ env.appKey = "") := by tauto
    refine ⟨?_, ?_, ?_, ?_⟩
    · intro e he
      unfold fetchLogs
      rw [if_neg hcond, he]
    · intro s t h
      unfold fetchLogs
      rw [if_neg hcond, h]
    · intro h
      unfold fetchLogs
      rw [if_neg hcond, h]
    · intro es h
      unfold fetchLogs
      rw [if_neg hcond, h]

/-- Witness for C6: missing API key yields the placeholder string. -/
theorem c6_fetchLogs_total_witness :
    fetchLogs id ⟨"", "appkey", FetchOutcome.invalidData⟩ = credsMissingMsg :=
  (c6_fetchLogs_total id ⟨"", "appkey", FetchOutcome.invalidData⟩).1 (Or.inl rfl)

/-! ## Claim C7 — fallback tool-detection rule -/

/-- Claim C7: the fallback rule contributes only when Method A accepted no
tool on the line; a fallback-matched name that is a reserved level token is
never counted, any other is.  Concretely the `brave-search: query=weather`
line increments `brave-search` by one, while a `Sent message.` result under
the agent marker increments nothing. -/
theorem c7_fallback_tool_rule :
    (∀ (counts : List (String × Nat)) (msg : List Char) (t : String),
      methodAtool msg = some t → toolStep counts msg = bump counts t) ∧
    (∀ (counts : List (String × Nat)) (msg : List Char) (n : String),
      methodAtool msg = none → fallbackFind msg = some n →
      (reservedLevels.contains n = true → toolStep counts msg = counts) ∧
      (reservedLevels.contains n = false →
        toolStep counts msg = bump counts n)) ∧
    (extract id
        ["2025-01-01T00:00:00.000Z [info] brave-search: query=weather"]).toolUsage =
      [("brave-search", 1)] ∧
    (extract id
        ["2025-01-01T00:00:00.000Z [info] gemini_meet_client.agent Sent message."]).toolUsage =
      [] := by
  refine ⟨?_, ?_, by decide, by decide⟩
  · intro counts msg t h
    simp [toolStep, h]
  · intro counts msg n h1 h2
    have ht : toolStep counts msg =
        if reservedLevels.contains n then counts else bump counts n := by
      simp [toolStep, h1, h2]
    constructor
    · intro h3
      rw [ht, if_pos h3]
    · intro h3
      rw [ht, if_neg (by rw [h3]; simp)]

/-- Witness for C7: the reserved token `INFO` in fallback position is not
counted. -/
theorem c7_fallback_tool_rule_witness :
    toolStep [] ("INFO: a=b".data) = [] := by
  exact (c7_fallback_tool_rule.2.1 [] ("INFO: a=b".data) "INFO" (by decide)
    (by decide)).1 (by decide)

/-! ## Claim C8 — a malformed line never aborts the batch -/

/-- Claim C8: a line matching neither log shape leaves the extractor state
unchanged, and removing it from any batch does not change the result — the
surrounding lines are processed exactly as without it. -/
theorem c8_malformed_line_skipped (fmt : String → String) (st : ExtractState)
    (line : String) (xs ys : List String) (h : parseLogLine line = none) :
    processLine fmt st line = st ∧
      extract fmt (xs ++ line :: ys) = extract fmt (xs ++ ys) := by
  refine ⟨processLine_skip fmt st line h, ?_⟩
  unfold extract
  rw [List.foldl_append, List.foldl_append, List.foldl_cons,
    processLine_skip fmt _ line h]

/-- Witness for C8: a stack-trace line is skipped. -/
theorem c8_malformed_line_skipped_witness :
    processLine id ⟨[], []⟩ "Traceback (most recent call last):" = ⟨[], []⟩ ∧
      extract id ([] ++ "Traceback (most recent call last):" :: []) =
        extract id ([] ++ []) :=
  c8_malformed_line_skipped id ⟨[], []⟩ "Traceback (most recent call last):"
    [] [] (by decide)

/-! ## Claim C4 — deduplication of consecutive identical segments -/

/-- Claim C4, counterexample: deduplication exists only for agent segments,
so two identical consecutive user-speech lines yield two segments — the claim
that identical consecutive segments collapse for every speaker kind fails for
the `human` kind. -/
theorem c4_user_segments_not_deduped :
    (extract id
        ["2025-01-01T00:00:00.000Z [info] Alice: \"Hi\"",
         "2025-01-01T00:00:00.000Z [info] Alice: \"Hi\""]).transcript =
      [⟨"2025-01-01T00:00:00.000Z", "Alice", "Hi", .user⟩,
       ⟨"2025-01-01T00:00:00.000Z", "Alice", "Hi", .user⟩] ∧
      (2 : Nat) ≠ 1 := by
  decide

/-- Claim C4 as amended: the collapse applies to agent segments only — before
appending an agent utterance the extractor compares it with the most recently
appended segment and skips it when that segment is an agent segment with
identical text (user segments are appended unconditionally).  In particular
the spec's duplicated `speak_text` line yields exactly one agent segment. -/
theorem c4_amended_agent_dedup :
    (∀ (fmt : String → String) (st : ExtractState) (line ts msg : String)
        (content : String),
      parseLogLine line = some (ts, msg) →
      containsList speakMarkerFull.data msg.data = true →
      containsList interruptMarker.data msg.data = false →
      agentCapture msg.data = some content →
      ∀ last, st.transcript.getLast? = some last →
        last.kind = SpeakerKind.agent → last.message = content →
        (processLine fmt st line).transcript = st.transcript) ∧
    (extract id
        ["2025-01-01T00:00:00.000Z [info] [2025-01-01 00:00:00] INFO agent: gemini_meet_speak_text: text=\"Hello\"",
         "2025-01-01T00:00:00.000Z [info] [2025-01-01 00:00:00] INFO agent: gemini_meet_speak_text: text=\"Hello\""]).transcript =
      [⟨"2025-01-01T00:00:00.000Z", "Gemini", "Hello", .agent⟩] := by
  constructor
  · intro fmt st line ts msg content h1 h2 h3 h4 last h5 h6 h7
    simp [processLine, h1, h2, h3, h4, h5, h6, h7]
  · decide

/-- Witness for the amended C4 at a concrete prior state whose last segment is
the same agent utterance. -/
theorem c4_amended_agent_dedup_witness :
    (processLine id ⟨[⟨"00:00:00", "Gemini", "Hello", .agent⟩], []⟩
        "2025-01-01T00:00:00.000Z [info] [2025-01-01 00:00:00] INFO agent: gemini_meet_speak_text: text=\"Hello\"").transcript =
      [⟨"00:00:00", "Gemini", "Hello", .agent⟩] := by
  exact c4_amended_agent_dedup.1 id
    ⟨[⟨"00:00:00", "Gemini", "Hello", .agent⟩], []⟩
    "2025-01-01T00:00:00.000Z [info] [2025-01-01 00:00:00] INFO agent: gemini_meet_speak_text: text=\"Hello\""
    "2025-01-01T00:00:00.000Z"
    "[2025-01-01 00:00:00] INFO agent: gemini_meet_speak_text: text=\"Hello\""
    "Hello" (by decide) (by decide) (by decide) (by decide)
    ⟨"00:00:00", "Gemini", "Hello", .agent⟩ (by decide) (by decide) (by decide)

/-! ## Claim C9 — reconciliation is a no-op on terminal jobs -/

/-- Claim C9: once a job's status is terminal (`completed`, `failed` or
`stopped`), the reconciliation pass — which only touches rows selected by
`status = 'running'` — leaves it unchanged, no matter how many times it is
invoked. -/
theorem c9_reconcile_idempotent_terminal
    (inspect : String → InspectOutcome) (now : Nat) (uid : String)
    (m : Meeting) (h : isTerminal m.status = true) :
    ∀ n : Nat, (reconcileStep inspect now uid)^[n] m = m := by
  have h1 : reconcileStep inspect now uid m = m := by
    unfold reconcileStep
    have hne : ¬(m.createdBy = uid ∧ m.status = MStatus.running) := by
      rintro ⟨-, h2⟩
      rw [h2] at h
      simp [isTerminal] at h
    simp [hne]
  intro n
  induction n with
  | zero => rfl
  | succ k ih => rw [Function.iterate_succ_apply, h1, ih]

/-! ## Claim C3 — materialized sandbox configuration -/

/-- Every element of an upserted map is an old element or the new pair. -/
theorem mem_upsert (m : List (String × McpEntry)) (k : String) (v : McpEntry) :
    ∀ p ∈ upsert m k v, p ∈ m ∨ p = (k, v) := by
  intro p hp
  unfold upsert at hp
  split at hp
  · obtain ⟨q, hq, he⟩ := List.mem_map.mp hp
    by_cases hk : q.1 = k
    · right
      rw [if_pos hk] at he
      exact he.symm
    · left
      rw [if_neg hk] at he
      exact he ▸ hq
  · rcases List.mem_append.mp hp with h | h
    · left; exact h
    · right; simpa using h

/-- Upserting a fresh key appends the pair. -/
theorem upsert_fresh (m : List (String × McpEntry)) (k : String) (v : McpEntry)
    (h : ∀ q ∈ m, q.1 ≠ k) : upsert m k v = m ++ [(k, v)] := by
  have ha : (m.any (fun p => p.1 = k)) = false := by
    simp only [List.any_eq_false, decide_eq_true_eq]
    exact h
  rw [upsert, ha]
  simp

/-- The config loop, with a generalized accumulator: when the clean configs
have pairwise distinct normalized names and none collides with the
accumulator, the loop appends exactly the clean configs' entries. -/
theorem buildMcpServers_go (cfgs : List McpConfig) :
    ∀ acc : List (String × McpEntry),
      (∀ c ∈ cleanConfigs cfgs, ∀ q ∈ acc, q.1 ≠ normalizeName c.name) →
      ((cleanConfigs cfgs).map (fun c => normalizeName c.name)).Nodup →
      cfgs.foldl mcpStep acc =
        acc ++
          (cleanConfigs cfgs).map (fun c => (normalizeName c.name, mkEntry c)) := by
  induction cfgs with
  | nil => intro acc _ _; simp [cleanConfigs]
  | cons c cs ih =>
    intro acc hfresh hnodup
    cases hd : hasEmptyEnvVars c.env with
    | true =>
      have hclean : cleanConfigs (c :: cs) = cleanConfigs cs := by
        simp [cleanConfigs, List.filter_cons, hd]
      rw [List.foldl_cons, show mcpStep acc c = acc by simp [mcpStep, hd]]
      rw [hclean] at hfresh hnodup ⊢
      exact ih acc hfresh hnodup
    | false =>
      have hclean : cleanConfigs (c :: cs) = c :: cleanConfigs cs := by
        simp [cleanConfigs, List.filter_cons, hd]
      have hcmem : c ∈ cleanConfigs (c :: cs) := by
        rw [hclean]; exact List.mem_cons_self c _
      have hstep : mcpStep acc c = acc ++ [(normalizeName c.name, mkEntry c)] := by
        rw [mcpStep, if_neg (by simp [hd])]
        exact upsert_fresh acc _ _ (fun q hq => hfresh c hcmem q hq)
      rw [List.foldl_cons, hstep]
      rw [hclean] at hfresh hnodup
      rw [List.map_cons, List.nodup_cons] at hnodup
      have hfresh' : ∀ c' ∈ cleanConfigs cs,
          ∀ q ∈ acc ++ [(normalizeName c.name, mkEntry c)],
            q.1 ≠ normalizeName c'.name := by
        intro c' hc' q hq
        rcases List.mem_append.mp hq with hmem | hmem
        · exact hfresh c' (List.mem_cons_of_mem c hc') q hmem
        · have hq1 : q = (normalizeName c.name, mkEntry c) := by simpa using hmem
          rw [hq1]
          intro heq
          apply hnodup.1
          have hk : normalizeName c.name = normalizeName c'.name := heq
          rw [hk]
          exact List.mem_map_of_mem (fun x => normalizeName x.name) hc'
      rw [ih _ hfresh' hnodup.2, hclean, List.map_cons, List.append_assoc]
      rfl

/-- Every entry of the materialized map arises from a clean config. -/
theorem buildMcpServers_mem (cfgs : List McpConfig) :
    ∀ (acc : List (String × McpEntry)) (p : String × McpEntry),
      p ∈ cfgs.foldl mcpStep acc →
      p ∈ acc ∨
        ∃ c, c ∈ cfgs ∧ hasEmptyEnvVars c.env = false ∧
          p = (normalizeName c.name, mkEntry c) := by
  induction cfgs with
  | nil => intro acc p hp; left; exact hp
  | cons c cs ih =>
    intro acc p hp
    rw [List.foldl_cons] at hp
    rcases ih (mcpStep acc c) p hp with h | ⟨c', hc', hcl, he⟩
    · cases hd : hasEmptyEnvVars c.env with
      | false =>
        rw [mcpStep, if_neg (by simp [hd])] at h
        rcases mem_upsert _ _ _ p h with h2 | h2
        · left; exact h2
        · right; exact ⟨c, List.mem_cons_self c cs, hd, h2⟩
      | true =>
        rw [mcpStep, if_pos (by simp [hd])] at h
        left; exact h
    · right; exact ⟨c', List.mem_cons_of_mem c hc', hcl, he⟩

/-- Claim C3: the materialized `mcpServers` object never includes a binding
with an empty-valued environment entry — every entry of the document comes
from a config with no empty env value, keyed by its name lower-cased with
whitespace runs replaced by `-` — and, when the clean configs' normalized
names are distinct, the document is exactly the clean subset in order, under
those keys. -/
theorem c3_materialized_bindings (cfgs : List McpConfig) :
    (∀ p ∈ buildMcpServers cfgs,
      ∃ c, c ∈ cfgs ∧ hasEmptyEnvVars c.env = false ∧
        p = (normalizeName c.name, mkEntry c)) ∧
    (((cleanConfigs cfgs).map (fun c => normalizeName c.name)).Nodup →
      buildMcpServers cfgs =
        (cleanConfigs cfgs).map (fun c => (normalizeName c.name, mkEntry c))) := by
  constructor
  · intro p hp
    rcases buildMcpServers_mem cfgs [] p hp with h | h
    · simp at h
    · exact h
  · intro hnd
    have h := buildMcpServers_go cfgs [] (by intro c _ q hq; simp at hq) hnd
    simpa [buildMcpServers] using h

/-- Witness for C3: the empty-valued `GitHub` binding is excluded and the
`Brave Search` binding is keyed `brave-search`. -/
theorem c3_materialized_bindings_witness :
    buildMcpServers
        [⟨"Brave Search", "npx", ["-y"], [("BRAVE_API_KEY", "abc")]⟩,
         ⟨"GitHub", "npx", [], [("TOKEN", "")]⟩] =
      [("brave-search", ⟨"npx", ["-y"], some [("BRAVE_API_KEY", "abc")]⟩)] :=
  (c3_materialized_bindings
    [⟨"Brave Search", "npx", ["-y"], [("BRAVE_API_KEY", "abc")]⟩,
     ⟨"GitHub", "npx", [], [("TOKEN", "")]⟩]).2 (by decide)

/-! ## Claim C10 — failed log fetches extract nothing -/

/-- Claim C10: whenever the log fetch fails — missing credentials, a thrown
network error, a non-ok HTTP response, or a malformed body — the placeholder
string returned by `fetchLogs` fails the timestamp-prefixed line shape on
every line (the dynamic parts assumed newline-free), so `getMeetingDetails`
still returns normally, with an empty transcript and an empty tool-usage
map. -/
theorem c10_error_logs_extract_empty (fmt iso : String → String)
    (env : DatadogEnv) :
    (env.apiKey = "" ∨ env.appKey = "" →
      getMeetingDetails fmt iso env = ⟨[], []⟩) ∧
    (∀ e, env.outcome = FetchOutcome.netThrow e → hasNl e = false →
      getMeetingDetails fmt iso env = ⟨[], []⟩) ∧
    (∀ s t, env.outcome = FetchOutcome.httpError s t →
      hasNl (Nat.repr s) = false → hasNl t = false →
      getMeetingDetails fmt iso env = ⟨[], []⟩) ∧
    (env.outcome = FetchOutcome.invalidData →
      getMeetingDetails fmt iso env = ⟨[], []⟩) := by
  have hcreds : env.apiKey = "" ∨ env.appKey = "" →
      getMeetingDetails fmt iso env = ⟨[], []⟩ := by
    intro h
    unfold getMeetingDetails
    rw [show fetchLogs iso env = credsMissingMsg by unfold fetchLogs; rw [if_pos h]]
    exact extract_single_skip fmt credsMissingMsg (by decide) (by decide)
  refine ⟨hcreds, ?_, ?_, ?_⟩
  · intro e he hnl
    by_cases hc : env.apiKey = "" ∨ env.appKey = ""
    · exact hcreds hc
    · unfold getMeetingDetails
      rw [show fetchLogs iso env = "Failed to connect to Datadog: " ++ e by
        unfold fetchLogs; rw [if_neg hc, he]]
      apply extract_single_skip
      · exact parse_none_head _ 'F'
          ("ailed to connect to Datadog: ".data ++ e.data) (by rfl) (by decide)
      · rw [hasNl_append, hnl]
        decide
  · intro s t hst hs ht
    by_cases hc : env.apiKey = "" ∨ env.appKey = ""
    · exact hcreds hc
    · unfold getMeetingDetails
      rw [show fetchLogs iso env =
          "Error fetching logs from Datadog: " ++ Nat.repr s ++ " " ++ t by
        unfold fetchLogs; rw [if_neg hc, hst]]
      apply extract_single_skip
      · exact parse_none_head _ 'E'
          ("rror fetching logs from Datadog: ".data ++ (Nat.repr s).data ++
            " ".data ++ t.data) (by rfl) (by decide)
      · rw [hasNl_append, hasNl_append, hasNl_append, hs, ht]
        decide
  · intro h
    by_cases hc : env.apiKey = "" ∨ env.appKey = ""
    · exact hcreds hc
    · unfold getMeetingDetails
      rw [show fetchLogs iso env =
          "No logs found or invalid response from Datadog." by
        unfold fetchLogs; rw [if_neg hc, h]]
      exact extract_single_skip fmt _ (by decide) (by decide)

/-- Witness for C10: a concrete 403 response extracts nothing. -/
theorem c10_error_logs_extract_empty_witness :
    getMeetingDetails id id ⟨"apikey", "appkey", FetchOutcome.httpError 403 "Forbidden"⟩ =
      ⟨[], []⟩ :=
  (c10_error_logs_extract_empty id id
      ⟨"apikey", "appkey", FetchOutcome.httpError 403 "Forbidden"⟩).2.2.1
    403 "Forbidden" rfl (by decide) (by decide)

/-- Witness for C9: three reconciliations of a concrete stopped job. -/
theorem c9_reconcile_idempotent_terminal_witness :
    (reconcileStep inspectErr 0 "u1")^[3]
        ⟨"m3", "https://meet.example", MStatus.stopped, some "c3", [], "u1",
          some 5⟩ =
      ⟨"m3", "https://meet.example", MStatus.stopped, some "c3", [], "u1",
        some 5⟩ :=
  c9_reconcile_idempotent_terminal inspectErr 0 "u1" _ (by decide) 3

end GeminiMeet
